import Mathlib

/-!
Shallow embedding of the row-transformation and name-resolution pipeline of
`linear-custom-import.js`: the lookup builder, the team resolver, the row
normalizer and the sequential import driver, together with theorems checking
the specification's testable properties against this embedding.

JavaScript strings are modelled as Lean `String`, JavaScript numbers produced
by `parseInt` as an integer-or-NaN type `JSNum`, missing object fields as
`Option`, and the plain-object name maps as functions `String → Option String`
built by successive key assignment.
-/

/-- Result of JavaScript `parseInt`: an integer, or NaN when no digits parse. -/
inductive JSNum where
  | num (n : Int)
  | nan

deriving instance DecidableEq, Repr for JSNum

/-- JavaScript whitespace (WhiteSpace and LineTerminator code points) as
skipped by `parseInt` and removed by `String.prototype.trim`. -/
def isJsWs (c : Char) : Bool :=
  c.toNat = 32 || c.toNat = 9 || c.toNat = 10 || c.toNat = 13 ||
  c.toNat = 11 || c.toNat = 12 || c.toNat = 160 || c.toNat = 5760 ||
  (8192 <= c.toNat && c.toNat <= 8202) || c.toNat = 8232 || c.toNat = 8233 ||
  c.toNat = 8239 || c.toNat = 8287 || c.toNat = 12288 || c.toNat = 65279

/-- Value of a list of decimal digit characters, most significant first. -/
def decDigitsVal (cs : List Char) : Nat :=
  cs.foldl (fun a c => 10 * a + (c.toNat - 48)) 0

/-- Hexadecimal digit predicate (0-9, a-f, A-F). -/
def isHexDigitChar (c : Char) : Bool :=
  ('0' ≤ c && c ≤ '9') || ('a' ≤ c && c ≤ 'f') || ('A' ≤ c && c ≤ 'F')

/-- Value of one hexadecimal digit character. -/
def hexDigitVal (c : Char) : Nat :=
  if '0' ≤ c && c ≤ '9' then c.toNat - 48
  else if 'a' ≤ c && c ≤ 'f' then c.toNat - 87
  else c.toNat - 55

/-- Value of a list of hexadecimal digit characters, most significant first. -/
def hexDigitsVal (cs : List Char) : Nat :=
  cs.foldl (fun a c => 16 * a + hexDigitVal c) 0

/-- Whether a character sequence starts with the `0x` / `0X` marker that makes
JavaScript `parseInt` (radix unspecified) switch to hexadecimal. -/
def startsWithHexMarker : List Char → Bool
  | '0' :: c :: _ => c = 'x' || c = 'X'
  | _ => false

/-- The sign-stripped tail of JavaScript `parseInt`: detect a `0x`/`0X`
hexadecimal marker, then consume the longest digit run; no digits gives NaN,
otherwise the digits' value carries the sign read earlier. -/
def jsParseIntBody (neg : Bool) (body : List Char) : JSNum :=
  if startsWithHexMarker body then
    let digits := (body.drop 2).takeWhile isHexDigitChar
    if digits.isEmpty then JSNum.nan
    else JSNum.num (if neg then -(hexDigitsVal digits : Int) else (hexDigitsVal digits : Int))
  else
    let digits := body.takeWhile Char.isDigit
    if digits.isEmpty then JSNum.nan
    else JSNum.num (if neg then -(decDigitsVal digits : Int) else (decDigitsVal digits : Int))

/-- JavaScript `parseInt(s)` with the radix argument omitted: skip leading
whitespace, read an optional sign, then parse the remainder. -/
def jsParseInt (s : String) : JSNum :=
  match s.data.dropWhile isJsWs with
  | '-' :: body => jsParseIntBody true body
  | '+' :: body => jsParseIntBody false body
  | body => jsParseIntBody false body

/-- Split a character list on a single separator character, keeping empty
segments, as JavaScript `String.prototype.split` does with a one-character
separator: the empty string yields one empty segment. -/
def splitOnChar (sep : Char) : List Char → List (List Char)
  | [] => [[]]
  | c :: rest =>
    let r := splitOnChar sep rest
    if c = sep then [] :: r
    else
      match r with
      | g :: gs => (c :: g) :: gs
      | [] => [[c]]

/-- JavaScript `s.split(sep)` for a one-character separator. -/
def jsSplit (s : String) (sep : Char) : List String :=
  (splitOnChar sep s.data).map String.mk

/-- JavaScript `String.prototype.trim`: drop whitespace from both ends. -/
def jsTrim (s : String) : String :=
  String.mk (((s.data.dropWhile isJsWs).reverse.dropWhile isJsWs).reverse)

/-- JavaScript `String.prototype.toLowerCase` restricted to the ASCII range
exercised by this program. -/
def jsToLower (s : String) : String :=
  String.mk (s.data.map Char.toLower)

/-- JavaScript `x || dflt` for a possibly-missing string `x`: the string when
present and non-empty (truthy), otherwise the default. -/
def jsOrDefault (v : Option String) (dflt : String) : String :=
  match v with
  | some s => if s == "" then dflt else s
  | none => dflt

/-- JavaScript `n || 0` for a `parseInt` result: NaN and 0 are falsy. -/
def jsOrZero : JSNum → Int
  | JSNum.num n => if n == 0 then 0 else n
  | JSNum.nan => 0

/-- The empty JavaScript object used as a name map (`{}`). -/
def emptyLookup : String → Option String := fun _ => none

/-- JavaScript property assignment `m[k] = v` on a name map. -/
def lookupSet (m : String → Option String) (k v : String) : String → Option String :=
  fun x => if x = k then some v else m x

/-- An API node exposing an id and a display name (workflow state or label). -/
structure NamedNode where
  id : String
  name : String

/-- The lookup builder: `nodes.forEach(n => { map[n.name.toLowerCase()] = n.id })`
starting from the empty object; later assignments overwrite earlier ones. -/
def buildLookup (nodes : List NamedNode) : String → Option String :=
  nodes.foldl (fun m node => lookupSet m (jsToLower node.name) node.id) emptyLookup

/-- One raw CSV record; only the columns the importer reads. A `none` field is
a column absent from the CSV; `some ""` is a present-but-empty cell. -/
structure RawRow where
  Title : Option String := none
  Description : Option String := none
  Priority : Option String := none
  Estimate : Option String := none
  Status : Option String := none
  Labels : Option String := none

deriving instance DecidableEq, Repr for RawRow

/-- The normalized issue-creation payload passed to `linearClient.createIssue`. -/
structure IssueRequest where
  teamId : String
  title : String
  description : String
  priority : Int
  estimate : Option JSNum
  stateId : Option String
  labelIds : Option (List String)

deriving instance DecidableEq, Repr for IssueRequest

/-- The row normalizer: the loop body of `main` that coerces one CSV row into
an issue-creation request, mirroring the source statement by statement.
`statusMap` and `labelMap` are the two name lookups, `targetTeamId` the
resolved team id. -/
def normalizeRow (statusMap labelMap : String → Option String)
    (targetTeamId : String) (row : RawRow) : IssueRequest :=
  let title := jsOrDefault row.Title "Untitled Issue"
  let description := jsOrDefault row.Description ""
  let priority : Int :=
    match row.Priority with
    | some s => if s == "" then 0 else jsOrZero (jsParseInt s)
    | none => 0
  let estimate : Option JSNum :=
    match row.Estimate with
    | some s => if s == "" then none else some (jsParseInt s)
    | none => none
  let stateId : Option String :=
    match row.Status with
    | some s => if s == "" then none else statusMap (jsToLower (jsTrim s))
    | none => none
  let labelIdsList : List String :=
    match row.Labels with
    | some s =>
      if s == "" then []
      else
        let labelNames := (jsSplit s ',').map (fun t => jsToLower (jsTrim t))
        labelNames.foldl (fun acc name =>
          match labelMap name with
          | some v => if v == "" then acc else acc ++ [v]
          | none => acc) []
    | none => []
  { teamId := targetTeamId
    title := title
    description := description
    priority := priority
    estimate := estimate
    stateId := stateId
    labelIds := if labelIdsList.length > 0 then some labelIdsList else none }

/-- A Linear team as consumed by the resolver: identifier, short key, name. -/
structure Team where
  id : String
  key : String
  name : String

deriving instance DecidableEq, Repr for Team

/-- The composed display string of a team choice: `[KEY] Name`. -/
def teamDisplay (t : Team) : String := "[" ++ t.key ++ "] " ++ t.name

/-- The predicate of the `teams.nodes.find(...)` call: selection equals the
team's name, or its key, or its composed display string. -/
def teamMatches (sel : String) (t : Team) : Bool :=
  t.name == sel || t.key == sel || teamDisplay t == sel

/-- Outcome of the team resolution step: a definitive team id, or the fatal
`process.exit(1)` path taken when no team matches the selection. -/
inductive TeamResolution where
  | resolved (id : String)
  | unresolvedTeamError

deriving instance DecidableEq, Repr for TeamResolution

/-- The `uuidRegex` test: eight hex digits, dash, four hex, dash, four hex,
dash, four hex, dash, twelve hex, anchored at both ends, case-insensitive
(the regex's `\b` assertions between a hex digit and a dash always hold). -/
def isUuidString (s : String) : Bool :=
  match splitOnChar '-' s.data with
  | [a, b, c, d, e] =>
    a.length == 8 && b.length == 4 && c.length == 4 && d.length == 4 && e.length == 12 &&
    (a ++ b ++ c ++ d ++ e).all isHexDigitChar
  | _ => false

/-- The team resolver: if the selection does not look like a UUID, search the
team list for a display-string match and fail fatally when none exists;
otherwise use the selection verbatim as the team id. -/
def resolveTeam (teams : List Team) (sel : String) : TeamResolution :=
  if !(isUuidString sel) then
    match teams.find? (teamMatches sel) with
    | some t => TeamResolution.resolved t.id
    | none => TeamResolution.unresolvedTeamError
  else TeamResolution.resolved sel

/-- The payload returned by a successful `createIssue` call: the created
entity's id and, when the lazy issue fetch yields an issue, its URL. -/
structure CreatedPayload where
  id : String
  issueUrl : Option String

deriving instance DecidableEq, Repr for CreatedPayload

/-- The per-row outcome emitted by the driver loop: a success line carrying
the issue URL (or the bare id fallback), or a failure line carrying the
caught error's message. -/
inductive ImportOutcome where
  | success (title : String) (urlOrId : String)
  | failure (title : String) (message : String)

deriving instance DecidableEq, Repr for ImportOutcome

/-- Whether an outcome is a failure line. -/
def isFailureOutcome : ImportOutcome → Bool
  | ImportOutcome.failure _ _ => true
  | ImportOutcome.success _ _ => false

/-- The title printed with an outcome line. -/
def outcomeTitle : ImportOutcome → String
  | ImportOutcome.success t _ => t
  | ImportOutcome.failure t _ => t

/-- One iteration of the import loop body, given the `createIssue` collaborator
for this call: normalize the row, attempt creation, and turn the result or the
caught error into an outcome line. -/
def processRow (createIssue : IssueRequest → Except String CreatedPayload)
    (statusMap labelMap : String → Option String) (targetTeamId : String)
    (row : RawRow) : ImportOutcome :=
  let req := normalizeRow statusMap labelMap targetTeamId row
  match createIssue req with
  | Except.ok payload =>
    match payload.issueUrl with
    | some url => ImportOutcome.success req.title url
    | none => ImportOutcome.success req.title payload.id
  | Except.error msg => ImportOutcome.failure req.title msg

/-- The running tally of the driver: the two counters and the outcome lines
emitted so far, in order. -/
structure RunTally where
  successCount : Nat
  failCount : Nat
  outcomes : List ImportOutcome

deriving instance DecidableEq, Repr for RunTally

/-- Fold one row into the tally: the success branches increment
`successCount`, the catch branch increments `failCount`, and exactly one
outcome line is emitted either way. -/
def stepRow (createIssue : IssueRequest → Except String CreatedPayload)
    (statusMap labelMap : String → Option String) (targetTeamId : String)
    (st : RunTally) (row : RawRow) : RunTally :=
  match processRow createIssue statusMap labelMap targetTeamId row with
  | ImportOutcome.success t u =>
    { st with successCount := st.successCount + 1
              outcomes := st.outcomes ++ [ImportOutcome.success t u] }
  | ImportOutcome.failure t m =>
    { st with failCount := st.failCount + 1
              outcomes := st.outcomes ++ [ImportOutcome.failure t m] }

/-- The sequential `for (const row of results)` loop from position `i`:
each remaining row is processed with the collaborator instance for its call
index, so distinct calls may succeed or fail independently. -/
def runFrom (createIssue : Nat → IssueRequest → Except String CreatedPayload)
    (statusMap labelMap : String → Option String) (targetTeamId : String) :
    Nat → RunTally → List RawRow → RunTally
  | _, st, [] => st
  | i, st, row :: rest =>
    runFrom createIssue statusMap labelMap targetTeamId (i + 1)
      (stepRow (createIssue i) statusMap labelMap targetTeamId st row) rest

/-- The import driver: run the loop over all rows starting from zeroed
counters and no emitted lines. -/
def runImport (createIssue : Nat → IssueRequest → Except String CreatedPayload)
    (statusMap labelMap : String → Option String) (targetTeamId : String)
    (rows : List RawRow) : RunTally :=
  runFrom createIssue statusMap labelMap targetTeamId 0 ⟨0, 0, []⟩ rows

/-- Claim C1: for every row in which the Status field is present but its
trimmed-and-lowercased value is not a key of the status lookup, the stateId of
the produced IssueRequest is absent. -/
theorem stateId_absent_of_unknown_status
    (statusMap labelMap : String → Option String) (teamId : String) (row : RawRow)
    (s : String) (hs : row.Status = some s)
    (hmiss : statusMap (jsToLower (jsTrim s)) = none) :
    (normalizeRow statusMap labelMap teamId row).stateId = none := by
  by_cases h : s == "" <;> simp [normalizeRow, hs, h, hmiss]

theorem stateId_absent_of_unknown_status_witness :
    (normalizeRow emptyLookup emptyLookup "team" { Status := some "Weird" }).stateId = none :=
  stateId_absent_of_unknown_status emptyLookup emptyLookup "team"
    { Status := some "Weird" } "Weird" rfl rfl

/-- Claim C4: every selection matching the identifier pattern (8-4-4-4-12 hex
groups, case-insensitive) is returned unchanged as the team id, for any team
list, without searching it. -/
theorem uuid_selection_used_verbatim (teams : List Team) (sel : String)
    (h : isUuidString sel = true) :
    resolveTeam teams sel = TeamResolution.resolved sel := by
  simp [resolveTeam, h]

theorem uuid_selection_used_verbatim_witness :
    resolveTeam [⟨"other-id", "EN", "Engineering"⟩] "0123abcd-0000-AAAA-ffff-0123456789ab"
      = TeamResolution.resolved "0123abcd-0000-AAAA-ffff-0123456789ab" :=
  uuid_selection_used_verbatim [⟨"other-id", "EN", "Engineering"⟩]
    "0123abcd-0000-AAAA-ffff-0123456789ab" (by decide)

/-- Claim C3: a row missing the Title field gets the literal title
"Untitled Issue", and the row is still processed into an outcome (never
rejected) whose printed title is that default. -/
theorem title_defaulted_when_missing
    (statusMap labelMap : String → Option String) (teamId : String) (row : RawRow)
    (h : row.Title = none) :
    (normalizeRow statusMap labelMap teamId row).title = "Untitled Issue" ∧
    ∀ createIssue : IssueRequest → Except String CreatedPayload,
      outcomeTitle (processRow createIssue statusMap labelMap teamId row)
        = "Untitled Issue" := by
  have ht : (normalizeRow statusMap labelMap teamId row).title = "Untitled Issue" := by
    simp [normalizeRow, jsOrDefault, h]
  refine ⟨ht, fun createIssue => ?_⟩
  unfold processRow
  cases hc : createIssue (normalizeRow statusMap labelMap teamId row) with
  | ok payload => cases hp : payload.issueUrl <;> simp [hc, hp, outcomeTitle, ht]
  | error msg => simp [hc, outcomeTitle, ht]

theorem title_defaulted_when_missing_witness :
    (normalizeRow emptyLookup emptyLookup "team" { Description := some "d" }).title
      = "Untitled Issue" :=
  (title_defaulted_when_missing emptyLookup emptyLookup "team"
    { Description := some "d" } rfl).1

/-- Claim C8: the estimate of the produced IssueRequest is absent when the
Estimate field is missing, and is the NaN pass-through of integer parsing when
the field is (non-emptily) present but unparsable. -/
theorem estimate_absent_or_nan_passthrough
    (statusMap labelMap : String → Option String) (teamId : String) (row : RawRow) :
    (row.Estimate = none → (normalizeRow statusMap labelMap teamId row).estimate = none) ∧
    (∀ s, row.Estimate = some s → s ≠ "" → jsParseInt s = JSNum.nan →
      (normalizeRow statusMap labelMap teamId row).estimate = some JSNum.nan) := by
  constructor
  · intro h
    simp [normalizeRow, h]
  · intro s hs hne hnan
    have hne' : (s == "") = false := by simp [hne]
    simp [normalizeRow, hs, hne', hnan]

theorem estimate_absent_or_nan_passthrough_witness :
    (normalizeRow emptyLookup emptyLookup "team" {}).estimate = none ∧
    (normalizeRow emptyLookup emptyLookup "team" { Estimate := some "high" }).estimate
      = some JSNum.nan :=
  ⟨(estimate_absent_or_nan_passthrough emptyLookup emptyLookup "team" {}).1 rfl,
   (estimate_absent_or_nan_passthrough emptyLookup emptyLookup "team"
      { Estimate := some "high" }).2 "high" rfl (by decide) (by decide)⟩

/-- Claim C9: a field holding the empty string is treated exactly as a missing
field: for each of Title, Priority, Estimate, Status and Labels the normalized
request is identical to the missing-field request, and the empty field yields
the documented default (default title, priority 0 without parsing, absent
estimate, absent stateId, absent labelIds). -/
theorem empty_field_as_missing
    (statusMap labelMap : String → Option String) (teamId : String) (row : RawRow) :
    (normalizeRow statusMap labelMap teamId { row with Title := some "" } =
      normalizeRow statusMap labelMap teamId { row with Title := none }) ∧
    (normalizeRow statusMap labelMap teamId { row with Priority := some "" } =
      normalizeRow statusMap labelMap teamId { row with Priority := none }) ∧
    (normalizeRow statusMap labelMap teamId { row with Estimate := some "" } =
      normalizeRow statusMap labelMap teamId { row with Estimate := none }) ∧
    (normalizeRow statusMap labelMap teamId { row with Status := some "" } =
      normalizeRow statusMap labelMap teamId { row with Status := none }) ∧
    (normalizeRow statusMap labelMap teamId { row with Labels := some "" } =
      normalizeRow statusMap labelMap teamId { row with Labels := none }) ∧
    (normalizeRow statusMap labelMap teamId { row with Title := some "" }).title
      = "Untitled Issue" ∧
    (normalizeRow statusMap labelMap teamId { row with Priority := some "" }).priority = 0 ∧
    (normalizeRow statusMap labelMap teamId { row with Estimate := some "" }).estimate
      = none ∧
    (normalizeRow statusMap labelMap teamId { row with Status := some "" }).stateId = none ∧
    (normalizeRow statusMap labelMap teamId { row with Labels := some "" }).labelIds
      = none :=
  ⟨rfl, rfl, rfl, rfl, rfl, rfl, rfl, rfl, rfl, rfl⟩

/-- `List.find?` returns the element at the first index satisfying the
predicate when all earlier indices fail it. -/
theorem find_first_match {α : Type} (p : α → Bool) (l : List α) :
    ∀ i : Fin l.length, p (l.get i) = true →
      (∀ j : Fin l.length, (j : Nat) < (i : Nat) → p (l.get j) = false) →
      l.find? p = some (l.get i) := by
  induction l with
  | nil => intro i; exact absurd i.isLt (Nat.not_lt_zero _)
  | cons a l ih =>
    intro i hp hprev
    match i with
    | ⟨0, h0⟩ =>
      simp only [List.get] at hp
      simp [List.find?, hp]
    | ⟨k + 1, hk⟩ =>
      have ha : p a = false := hprev ⟨0, Nat.succ_pos _⟩ (Nat.succ_pos k)
      have hrec := ih ⟨k, Nat.lt_of_succ_lt_succ hk⟩ hp
        (fun j hj => hprev ⟨j.val + 1, Nat.succ_lt_succ j.isLt⟩ (Nat.succ_lt_succ hj))
      simp [List.find?, ha, hrec]

/-- Claim C5: for a non-identifier selection, the resolver returns the id of
the first team (in list order) whose name, key, or composed display string
equals the selection, and fails with the unresolved-team error when no team
matches. -/
theorem non_uuid_selection_resolution (teams : List Team) (sel : String)
    (h : isUuidString sel = false) :
    (∀ i : Fin teams.length, teamMatches sel (teams.get i) = true →
      (∀ j : Fin teams.length, (j : Nat) < (i : Nat) → teamMatches sel (teams.get j) = false) →
      resolveTeam teams sel = TeamResolution.resolved (teams.get i).id) ∧
    ((∀ t ∈ teams, teamMatches sel t = false) →
      resolveTeam teams sel = TeamResolution.unresolvedTeamError) := by
  constructor
  · intro i hp hprev
    have hf := find_first_match (teamMatches sel) teams i hp hprev
    simp [resolveTeam, h, hf]
  · intro hnone
    have hf : teams.find? (teamMatches sel) = none :=
      List.find?_eq_none.mpr (by intro x hx; simp [hnone x hx])
    simp [resolveTeam, h, hf]

theorem non_uuid_selection_resolution_witness :
    resolveTeam [⟨"id0", "QA", "Quality"⟩, ⟨"id1", "EN", "Engineering"⟩] "[EN] Engineering"
      = TeamResolution.resolved "id1" ∧
    resolveTeam [⟨"id0", "QA", "Quality"⟩] "nobody"
      = TeamResolution.unresolvedTeamError :=
  ⟨(non_uuid_selection_resolution [⟨"id0", "QA", "Quality"⟩, ⟨"id1", "EN", "Engineering"⟩]
      "[EN] Engineering" (by decide)).1 ⟨1, by decide⟩ (by decide) (by decide),
   (non_uuid_selection_resolution [⟨"id0", "QA", "Quality"⟩] "nobody" (by decide)).2
      (by decide)⟩

/-- The label accumulation loop of the normalizer pushes exactly the truthy
lookup results; when every stored id is non-empty this is `filterMap` over the
token list. -/
theorem labels_fold_eq_filterMap (labelMap : String → Option String)
    (hvals : ∀ k v, labelMap k = some v → v ≠ "") :
    ∀ (names : List String) (acc : List String),
      names.foldl (fun acc name =>
        match labelMap name with
        | some v => if v == "" then acc else acc ++ [v]
        | none => acc) acc = acc ++ names.filterMap labelMap := by
  intro names
  induction names with
  | nil => intro acc; simp
  | cons name rest ih =>
    intro acc
    rw [List.foldl_cons, List.filterMap_cons]
    cases hn : labelMap name with
    | none => simp only [hn]; exact ih acc
    | some v =>
      have hv : (v == "") = false := by simp [hvals name v hn]
      simp only [hn, hv, Bool.false_eq_true, if_false]
      rw [ih (acc ++ [v])]
      simp

/-- Claim C2: for a row with a non-empty Labels field, and lookups whose
stored ids are non-empty, labelIds is exactly the ordered,
duplicate-preserving lookup image of the recognized comma-separated tokens,
and collapses to absent when no token resolves. -/
theorem labelIds_resolved_tokens
    (statusMap labelMap : String → Option String) (teamId : String) (row : RawRow)
    (s : String) (hl : row.Labels = some s) (hne : s ≠ "")
    (hvals : ∀ k v, labelMap k = some v → v ≠ "") :
    (normalizeRow statusMap labelMap teamId row).labelIds =
      (if ((jsSplit s ',').map (fun t => jsToLower (jsTrim t))).filterMap labelMap = []
       then none
       else some (((jsSplit s ',').map (fun t => jsToLower (jsTrim t))).filterMap labelMap)) := by
  have hne' : (s == "") = false := by simp [hne]
  simp only [normalizeRow, hl, hne', Bool.false_eq_true, if_false]
  rw [labels_fold_eq_filterMap labelMap hvals]
  simp only [List.nil_append]
  cases hres : ((jsSplit s ',').map (fun t => jsToLower (jsTrim t))).filterMap labelMap with
  | nil => simp
  | cons a l => simp

/-- A two-entry label lookup used to instantiate the label theorems. -/
def demoLabelMap : String → Option String :=
  fun k => if k = "bug" then some "L1" else if k = "urgent" then some "L2" else none

theorem labelIds_resolved_tokens_witness :
    (normalizeRow emptyLookup demoLabelMap "team"
      { Labels := some "Bug, mystery , bug" }).labelIds = some ["L1", "L1"] :=
  (labelIds_resolved_tokens emptyLookup demoLabelMap "team"
    { Labels := some "Bug, mystery , bug" } "Bug, mystery , bug" rfl (by decide)
    (by
      intro k v h
      unfold demoLabelMap at h
      split at h
      · rw [Option.some.injEq] at h; subst h; decide
      · split at h
        · rw [Option.some.injEq] at h; subst h; decide
        · exact Option.noConfusion h)).trans
    (by decide)

/-- One loop iteration emits exactly one outcome line, appended in order. -/
theorem stepRow_outcomes (createIssue : IssueRequest → Except String CreatedPayload)
    (statusMap labelMap : String → Option String) (targetTeamId : String)
    (st : RunTally) (row : RawRow) :
    (stepRow createIssue statusMap labelMap targetTeamId st row).outcomes =
      st.outcomes ++ [processRow createIssue statusMap labelMap targetTeamId row] := by
  cases hout : processRow createIssue statusMap labelMap targetTeamId row <;>
    simp [stepRow, hout]

/-- Each loop iteration increments exactly one of the two counters. -/
theorem stepRow_counts (createIssue : IssueRequest → Except String CreatedPayload)
    (statusMap labelMap : String → Option String) (targetTeamId : String)
    (st : RunTally) (row : RawRow) :
    (stepRow createIssue statusMap labelMap targetTeamId st row).successCount +
      (stepRow createIssue statusMap labelMap targetTeamId st row).failCount =
      st.successCount + st.failCount + 1 := by
  cases hout : processRow createIssue statusMap labelMap targetTeamId row <;>
    simp [stepRow, hout] <;> omega

/-- Over any suffix of the loop, the two counters together grow by exactly the
number of rows processed. -/
theorem runFrom_counts (createIssue : Nat → IssueRequest → Except String CreatedPayload)
    (statusMap labelMap : String → Option String) (targetTeamId : String) :
    ∀ (rows : List RawRow) (i : Nat) (st : RunTally),
      (runFrom createIssue statusMap labelMap targetTeamId i st rows).successCount +
        (runFrom createIssue statusMap labelMap targetTeamId i st rows).failCount =
        st.successCount + st.failCount + rows.length := by
  intro rows
  induction rows with
  | nil => intro i st; simp [runFrom]
  | cons row rest ih =>
    intro i st
    rw [runFrom, ih,
      stepRow_counts (createIssue i) statusMap labelMap targetTeamId st row,
      List.length_cons]
    omega

/-- Claim C6: after a full run over any list of input rows, successCount plus
failCount equals the number of input rows. -/
theorem tally_conservation (createIssue : Nat → IssueRequest → Except String CreatedPayload)
    (statusMap labelMap : String → Option String) (targetTeamId : String)
    (rows : List RawRow) :
    (runImport createIssue statusMap labelMap targetTeamId rows).successCount +
      (runImport createIssue statusMap labelMap targetTeamId rows).failCount =
      rows.length := by
  have h := runFrom_counts createIssue statusMap labelMap targetTeamId rows 0 ⟨0, 0, []⟩
  simpa [runImport] using h

/-- The outcome lines of any loop suffix are the already-emitted lines
followed by one line per remaining row, in row order, each produced by the
collaborator instance of its call index. -/
theorem runFrom_outcomes (createIssue : Nat → IssueRequest → Except String CreatedPayload)
    (statusMap labelMap : String → Option String) (targetTeamId : String) :
    ∀ (rows : List RawRow) (i : Nat) (st : RunTally),
      (runFrom createIssue statusMap labelMap targetTeamId i st rows).outcomes =
        st.outcomes ++ (rows.enumFrom i).map
          (fun p => processRow (createIssue p.1) statusMap labelMap targetTeamId p.2) := by
  intro rows
  induction rows with
  | nil => intro i st; simp [runFrom, List.enumFrom]
  | cons row rest ih =>
    intro i st
    rw [runFrom, ih]
    rw [stepRow_outcomes (createIssue i) statusMap labelMap targetTeamId st row]
    simp [List.enumFrom]

/-- Indexing into `enumFrom`: the entry at position `j` pairs `n + j` with the
underlying element. -/
theorem enumFrom_get?_map {α : Type} :
    ∀ (l : List α) (n j : Nat),
      (l.enumFrom n).get? j = (l.get? j).map (fun a => (n + j, a)) := by
  intro l
  induction l with
  | nil => intro n j; simp [List.enumFrom]
  | cons a l ih =>
    intro n j
    cases j with
    | zero => simp [List.enumFrom]
    | succ k =>
      simp only [List.enumFrom, List.get?]
      have harith : n + 1 + k = n + (k + 1) := by omega
      rw [ih (n + 1) k, harith]

/-- The failure counter equals the number of failure lines emitted, an
invariant the loop preserves. -/
theorem runFrom_failCount (createIssue : Nat → IssueRequest → Except String CreatedPayload)
    (statusMap labelMap : String → Option String) (targetTeamId : String) :
    ∀ (rows : List RawRow) (i : Nat) (st : RunTally),
      st.failCount = st.outcomes.countP isFailureOutcome →
      (runFrom createIssue statusMap labelMap targetTeamId i st rows).failCount =
        (runFrom createIssue statusMap labelMap targetTeamId i st rows).outcomes.countP
          isFailureOutcome := by
  intro rows
  induction rows with
  | nil => intro i st h; simpa [runFrom] using h
  | cons row rest ih =>
    intro i st h
    rw [runFrom]
    apply ih
    cases hout : processRow (createIssue i) statusMap labelMap targetTeamId row <;>
      simp [stepRow, hout, List.countP_append, List.countP_cons, isFailureOutcome, h]

/-- Claim C7: when the creation call of row `i` fails with some error, the run
still emits one line per row in order, the line for row `i` is a failure line
carrying that row's title and the error's message, and failCount counts
exactly the failure lines; no row aborts the batch. -/
theorem per_row_failure_isolated
    (createIssue : Nat → IssueRequest → Except String CreatedPayload)
    (statusMap labelMap : String → Option String) (targetTeamId : String)
    (rows : List RawRow) (i : Fin rows.length) (msg : String)
    (hfail : createIssue i.val (normalizeRow statusMap labelMap targetTeamId (rows.get i)) =
      Except.error msg) :
    ((runImport createIssue statusMap labelMap targetTeamId rows).outcomes.length
      = rows.length) ∧
    ((runImport createIssue statusMap labelMap targetTeamId rows).outcomes.get? i.val =
      some (ImportOutcome.failure
        (normalizeRow statusMap labelMap targetTeamId (rows.get i)).title msg)) ∧
    ((runImport createIssue statusMap labelMap targetTeamId rows).failCount =
      (runImport createIssue statusMap labelMap targetTeamId rows).outcomes.countP
        isFailureOutcome) ∧
    (∀ j : Fin rows.length,
      (runImport createIssue statusMap labelMap targetTeamId rows).outcomes.get? j.val =
        some (processRow (createIssue j.val) statusMap labelMap targetTeamId (rows.get j))) := by
  have houts := runFrom_outcomes createIssue statusMap labelMap targetTeamId rows 0 ⟨0, 0, []⟩
  simp only [runImport]
  rw [houts]
  simp only [List.nil_append]
  have hget : ∀ j : Fin rows.length,
      ((rows.enumFrom 0).map
        (fun p => processRow (createIssue p.1) statusMap labelMap targetTeamId p.2)).get? j.val
        = some (processRow (createIssue j.val) statusMap labelMap targetTeamId (rows.get j)) := by
    intro j
    rw [List.get?_map, enumFrom_get?_map rows 0 j.val]
    rw [List.get?_eq_get j.isLt]
    simp
  refine ⟨?_, ?_, ?_, hget⟩
  · simp [List.length_map, List.enumFrom_length]
  · rw [hget i]
    have hpr : processRow (createIssue i.val) statusMap labelMap targetTeamId (rows.get i) =
        ImportOutcome.failure
          (normalizeRow statusMap labelMap targetTeamId (rows.get i)).title msg := by
      simp only [processRow]
      rw [hfail]
    rw [hpr]
  · have h := runFrom_failCount createIssue statusMap labelMap targetTeamId rows 0 ⟨0, 0, []⟩ rfl
    rw [houts] at h
    simpa using h

theorem per_row_failure_isolated_witness :
    (runImport (fun _ _ => Except.error "boom") emptyLookup emptyLookup "team"
      [{ Title := some "A" }]).outcomes.get? 0 =
      some (ImportOutcome.failure "A" "boom") :=
  ((per_row_failure_isolated (fun _ _ => Except.error "boom") emptyLookup emptyLookup "team"
    [{ Title := some "A" }] ⟨0, by decide⟩ "boom" rfl).2.1).trans (by decide)

/-- A decimal digit character has code point between 48 and 57. -/
theorem digit_toNat_bounds {c : Char} (h : c.isDigit = true) :
    48 ≤ c.toNat ∧ c.toNat ≤ 57 := by
  simp [Char.isDigit] at h
  exact h

/-- A decimal digit character is not JavaScript whitespace. -/
theorem digit_not_ws {c : Char} (h : c.isDigit = true) : isJsWs c = false := by
  have hb := digit_toNat_bounds h
  simp [isJsWs]
  omega

/-- On input starting with a decimal digit, `parseInt` skips no whitespace and
reads no sign: it parses the whole character list with positive sign. -/
theorem jsParseInt_of_digit_head (d0 : Char) (tl : List Char) (s : String)
    (hs : s.data = d0 :: tl) (hd0 : d0.isDigit = true) :
    jsParseInt s = jsParseIntBody false (d0 :: tl) := by
  have hb := digit_toNat_bounds hd0
  unfold jsParseInt
  rw [hs, List.dropWhile_cons, digit_not_ws hd0]
  simp only [Bool.false_eq_true, if_false]
  split
  · rename_i body heq
    injection heq with h1 _
    rw [h1] at hb
    exact absurd hb (by decide)
  · rename_i body heq
    injection heq with h1 _
    rw [h1] at hb
    exact absurd hb (by decide)
  · rfl

/-- Evaluation of the hexadecimal-marker test on a list of length at least
two with an arbitrary head. -/
theorem startsWithHexMarker_eq (c0 c1 : Char) (l : List Char) :
    startsWithHexMarker (c0 :: c1 :: l) =
      (decide (c0 = '0') && (decide (c1 = 'x') || decide (c1 = 'X'))) := by
  by_cases h0 : c0 = '0'
  · subst h0
    simp [startsWithHexMarker]
  · have hm : startsWithHexMarker (c0 :: c1 :: l) = false := by
      unfold startsWithHexMarker
      split
      · rename_i c l' heq
        injection heq with h1 _
        exact absurd h1 h0
      · rfl
    simp [hm, h0]

/-- `takeWhile` consumes exactly a prefix whose elements all satisfy the
predicate when the next element fails it. -/
theorem takeWhile_append_all {α : Type} (p : α → Bool) :
    ∀ (l1 : List α) (c : α) (r : List α),
      (∀ a ∈ l1, p a = true) → p c = false →
      (l1 ++ c :: r).takeWhile p = l1 := by
  intro l1
  induction l1 with
  | nil =>
    intro c r _ hc
    simp [List.takeWhile_cons, hc]
  | cons a l ih =>
    intro c r hall hc
    have ha : p a = true := hall a (List.mem_cons_self a l)
    simp only [List.cons_append, List.takeWhile_cons, ha, if_true]
    rw [ih c r (fun x hx => hall x (List.mem_cons_of_mem a hx)) hc]

/-- `parseInt` on a string made of a non-empty run of decimal digits followed
by a non-digit character and arbitrary text parses exactly that digit run —
provided the input is not a `0x`/`0X` hexadecimal form. -/
theorem jsParseInt_dec_prefix (s d : String) (c : Char) (r : List Char)
    (hsplit : s.data = d.data ++ c :: r)
    (hd : d.data ≠ [])
    (hdig : ∀ ch ∈ d.data, ch.isDigit = true)
    (hc : c.isDigit = false)
    (hnohex : ¬(d = "0" ∧ (c = 'x' ∨ c = 'X'))) :
    jsParseInt s = JSNum.num (decDigitsVal d.data) := by
  cases hdd : d.data with
  | nil => exact absurd hdd hd
  | cons d0 ds =>
    have hd0 : d0.isDigit = true := hdig d0 (by rw [hdd]; exact List.mem_cons_self _ _)
    have hsplit' : s.data = d0 :: (ds ++ c :: r) := by rw [hsplit, hdd]; simp
    rw [jsParseInt_of_digit_head d0 (ds ++ c :: r) s hsplit' hd0]
    have hmarker : startsWithHexMarker (d0 :: (ds ++ c :: r)) = false := by
      cases hds : ds with
      | nil =>
        rw [List.nil_append, startsWithHexMarker_eq]
        by_cases h0 : d0 = '0'
        · have hdstr : d = "0" := String.ext (by rw [hdd, hds, h0])
          have hcx : ¬(c = 'x' ∨ c = 'X') := fun hor => hnohex ⟨hdstr, hor⟩
          have hcx1 : ¬(c = 'x') := fun hx => hcx (Or.inl hx)
          have hcx2 : ¬(c = 'X') := fun hx => hcx (Or.inr hx)
          simp [hcx1, hcx2]
        · simp [h0]
      | cons d1 ds' =>
        have hd1 : d1.isDigit = true :=
          hdig d1 (by rw [hdd, hds]; exact List.mem_cons_of_mem _ (List.mem_cons_self _ _))
        have hb1 := digit_toNat_bounds hd1
        have h1x : ¬(d1 = 'x') := by intro hx; rw [hx] at hb1; exact absurd hb1 (by decide)
        have h1X : ¬(d1 = 'X') := by intro hx; rw [hx] at hb1; exact absurd hb1 (by decide)
        rw [List.cons_append, startsWithHexMarker_eq]
        simp [h1x, h1X]
    unfold jsParseIntBody
    rw [hmarker]
    simp only [Bool.false_eq_true, if_false]
    have hcat : d0 :: (ds ++ c :: r) = (d0 :: ds) ++ c :: r := by simp
    rw [hcat, takeWhile_append_all Char.isDigit (d0 :: ds) c r (by rw [← hdd]; exact hdig) hc]
    simp [hdd]

/-- Claim C10 (amended): for a Priority or Estimate value beginning with a
non-empty decimal digit run followed by a non-digit character and arbitrary
text — excluding the `0x`/`0X` hexadecimal form — the parsed result is the
integer value of that digit prefix: priority gets it directly and estimate
wraps it as a number. -/
theorem dec_prefix_parses_to_prefix_value
    (statusMap labelMap : String → Option String) (teamId : String) (row : RawRow)
    (s d : String) (c : Char) (r : List Char)
    (hsplit : s.data = d.data ++ c :: r)
    (hd : d.data ≠ [])
    (hdig : ∀ ch ∈ d.data, ch.isDigit = true)
    (hc : c.isDigit = false)
    (hnohex : ¬(d = "0" ∧ (c = 'x' ∨ c = 'X'))) :
    (normalizeRow statusMap labelMap teamId { row with Priority := some s }).priority
      = (decDigitsVal d.data : Int) ∧
    (normalizeRow statusMap labelMap teamId { row with Estimate := some s }).estimate
      = some (JSNum.num (decDigitsVal d.data)) := by
  have hparse := jsParseInt_dec_prefix s d c r hsplit hd hdig hc hnohex
  have hne : s ≠ "" := by
    intro he
    rw [he] at hsplit
    cases hc2 : d.data with
    | nil => rw [hc2] at hsplit; simp at hsplit
    | cons a l => rw [hc2] at hsplit; simp at hsplit
  have hsne : (s == "") = false := by simp [hne]
  constructor
  · simp only [normalizeRow, hsne, Bool.false_eq_true, if_false]
    rw [hparse]
    unfold jsOrZero
    by_cases hv : (decDigitsVal d.data : Int) = 0
    · simp [hv]
    · simp [hv]
  · simp only [normalizeRow, hsne, Bool.false_eq_true, if_false]
    rw [hparse]

theorem dec_prefix_parses_to_prefix_value_witness :
    (normalizeRow emptyLookup emptyLookup "team"
      { Priority := some "3 - urgent" }).priority = 3 ∧
    (normalizeRow emptyLookup emptyLookup "team"
      { Estimate := some "3 - urgent" }).estimate = some (JSNum.num 3) := by
  have h := dec_prefix_parses_to_prefix_value emptyLookup emptyLookup "team" {}
    "3 - urgent" "3" ' ' "- urgent".data (by decide) (by decide) (by decide) (by decide)
    (by decide)
  exact ⟨h.1.trans (by decide), h.2.trans (by decide)⟩

/-- Claim C10 as frozen is false on the code: the value `"0x10"` begins with
the decimal digit prefix `"0"` (integer value 0) followed by the non-numeric
text `"x10"`, yet JavaScript `parseInt` reads it as hexadecimal, so the
produced priority and estimate are 16, not the prefix value 0. -/
theorem dec_prefix_hex_counterexample :
    ("0x10".data = "0".data ++ 'x' :: "10".data) ∧
    "0".data ≠ [] ∧
    (∀ ch ∈ "0".data, ch.isDigit = true) ∧
    ('x').isDigit = false ∧
    decDigitsVal "0".data = 0 ∧
    (normalizeRow emptyLookup emptyLookup "team"
      { Priority := some "0x10" }).priority = 16 ∧
    (normalizeRow emptyLookup emptyLookup "team"
      { Estimate := some "0x10" }).estimate = some (JSNum.num 16) := by
  refine ⟨by decide, by decide, by decide, by decide, by decide, by decide, by decide⟩
